import Mathlib

/-
Shallow embedding of the PhoneBook application
(`Unit09/Phonebook_Application/app/app.py`).

The application keeps a list of contacts, derives a contact's country
from the phone prefix table `COUNTRY_CODES`, normalizes categories to
`VALID_CATEGORIES`, persists to CSV files, and authenticates a single
user by a SHA-256 password digest.

Modelling choices:
  * Python strings are Lean `String`s; `str.startswith` is prefix of
    the character list; `str.lower` maps `Char.toLower` over chars.
  * The CSV files are modelled by their parsed contents: the contacts
    file is an `Option (List Record)` (`none` = file absent), and the
    credentials file is an `Option User`.  Reading and writing is then
    pure data flow, as in the source.
  * `hashlib.sha256(...).hexdigest()` is an external library primitive;
    it is modelled as an abstract function parameter
    `sha256 : String → String` (the code only ever computes digests and
    compares them for equality, so this captures all it uses).
  * `sorted(keys, key=len, reverse=True)` is a stable sort in
    descending key-length order; `sortLenDesc` below is a stable
    insertion sort realizing exactly that ordering.
-/

/-- The static phone-prefix → country-name table `COUNTRY_CODES`,
in the dictionary's insertion order. -/
def COUNTRY_CODES : List (String × String) := [
  ("+1", "USA/Canada"),
  ("+1242", "Bahamas"),
  ("+1246", "Barbados"),
  ("+1264", "Anguilla"),
  ("+1268", "Antigua and Barbuda"),
  ("+1284", "British Virgin Islands"),
  ("+1345", "Cayman Islands"),
  ("+1441", "Bermuda"),
  ("+1473", "Grenada"),
  ("+1649", "Turks and Caicos"),
  ("+1664", "Montserrat"),
  ("+1721", "Sint Maarten"),
  ("+1758", "Saint Lucia"),
  ("+1767", "Dominica"),
  ("+1784", "Saint Vincent & Grenadines"),
  ("+1849", "Dominican Republic"),
  ("+1868", "Trinidad and Tobago"),
  ("+1869", "Saint Kitts and Nevis"),
  ("+1876", "Jamaica"),
  ("+1939", "Puerto Rico"),
  ("+44", "UK"),
  ("+33", "France"),
  ("+49", "Germany"),
  ("+39", "Italy"),
  ("+34", "Spain"),
  ("+351", "Portugal"),
  ("+352", "Luxembourg"),
  ("+353", "Ireland"),
  ("+31", "Netherlands"),
  ("+32", "Belgium"),
  ("+41", "Switzerland"),
  ("+43", "Austria"),
  ("+46", "Sweden"),
  ("+47", "Norway"),
  ("+45", "Denmark"),
  ("+358", "Finland"),
  ("+30", "Greece"),
  ("+48", "Poland"),
  ("+420", "Czech Republic"),
  ("+36", "Hungary"),
  ("+40", "Romania"),
  ("+359", "Bulgaria"),
  ("+385", "Croatia"),
  ("+381", "Serbia"),
  ("+386", "Slovenia"),
  ("+421", "Slovakia"),
  ("+370", "Lithuania"),
  ("+371", "Latvia"),
  ("+372", "Estonia"),
  ("+7", "Russia/Kazakhstan"),
  ("+380", "Ukraine"),
  ("+90", "Turkey"),
  ("+86", "China"),
  ("+91", "India"),
  ("+81", "Japan"),
  ("+82", "South Korea"),
  ("+61", "Australia"),
  ("+64", "New Zealand"),
  ("+62", "Indonesia"),
  ("+63", "Philippines"),
  ("+65", "Singapore"),
  ("+66", "Thailand"),
  ("+84", "Vietnam"),
  ("+60", "Malaysia"),
  ("+886", "Taiwan"),
  ("+852", "Hong Kong"),
  ("+92", "Pakistan"),
  ("+94", "Sri Lanka"),
  ("+880", "Bangladesh"),
  ("+977", "Nepal"),
  ("+95", "Myanmar"),
  ("+971", "UAE"),
  ("+966", "Saudi Arabia"),
  ("+972", "Israel"),
  ("+98", "Iran"),
  ("+964", "Iraq"),
  ("+974", "Qatar"),
  ("+965", "Kuwait"),
  ("+968", "Oman"),
  ("+962", "Jordan"),
  ("+961", "Lebanon"),
  ("+20", "Egypt"),
  ("+27", "South Africa"),
  ("+234", "Nigeria"),
  ("+254", "Kenya"),
  ("+212", "Morocco"),
  ("+213", "Algeria"),
  ("+216", "Tunisia"),
  ("+251", "Ethiopia"),
  ("+233", "Ghana"),
  ("+225", "Ivory Coast"),
  ("+255", "Tanzania"),
  ("+256", "Uganda"),
  ("+260", "Zambia"),
  ("+263", "Zimbabwe"),
  ("+55", "Brazil"),
  ("+54", "Argentina"),
  ("+57", "Colombia"),
  ("+56", "Chile"),
  ("+51", "Peru"),
  ("+58", "Venezuela"),
  ("+593", "Ecuador"),
  ("+591", "Bolivia"),
  ("+595", "Paraguay"),
  ("+598", "Uruguay"),
  ("+52", "Mexico"),
  ("+507", "Panama"),
  ("+506", "Costa Rica"),
  ("+503", "El Salvador"),
  ("+502", "Guatemala"),
  ("+504", "Honduras"),
  ("+505", "Nicaragua")]

/-- The recognized contact categories `VALID_CATEGORIES`. -/
def VALID_CATEGORIES : List String :=
  ["General", "Family", "Friends", "Emergency", "Favourites"]

/-- Python `s.startswith(code)`: `code` is a prefix of `s`. -/
def startswith (s code : String) : Bool :=
  code.data.isPrefixOf s.data

/-- One step of a stable insertion sort in descending length order:
`x` is placed before the first element not longer than it, so that on
equal lengths the earlier element stays first (Python sort stability). -/
def insertLenDesc (x : String) : List String → List String
  | [] => [x]
  | y :: ys => if y.length ≤ x.length then x :: y :: ys else y :: insertLenDesc x ys

/-- Stable sort in descending string-length order, modelling
`sorted(COUNTRY_CODES.keys(), key=len, reverse=True)`. -/
def sortLenDesc : List String → List String
  | [] => []
  | x :: xs => insertLenDesc x (sortLenDesc xs)

/-- The country codes sorted longest-first, as built at the start of
`Contact._calculate_country`. -/
def sorted_codes : List String :=
  sortLenDesc (COUNTRY_CODES.map Prod.fst)

/-- `Contact._calculate_country`: scan the length-sorted codes and
return the table entry of the first code the phone starts with;
`"Unknown"` when none matches. -/
def calculate_country (phone : String) : String :=
  match sorted_codes.find? (fun code => startswith phone code) with
  | some code => (List.lookup code COUNTRY_CODES).getD "Unknown"
  | none => "Unknown"

/-- The `Contact` dataclass: five string fields, in source order. -/
structure Contact where
  name : String
  phone : String
  email : String
  country : String
  category : String
  deriving DecidableEq

/-- `Contact.__post_init__`: when `country` is the `"Unknown"` sentinel
it is recomputed from the phone prefix, and an unrecognized `category`
is replaced by `"General"`. -/
def post_init (c : Contact) : Contact :=
  let c1 := if c.country = "Unknown" then { c with country := calculate_country c.phone } else c
  if c1.category ∈ VALID_CATEGORIES then c1 else { c1 with category := "General" }

/-- Constructing a `Contact(name, phone, email, country, category)`:
the dataclass runs `__post_init__` right after field assignment.  (In
the source `country` defaults to `"Unknown"` and `category` to
`"General"` when omitted; callers here pass them explicitly.) -/
def mkContact (name phone email country category : String) : Contact :=
  post_init ⟨name, phone, email, country, category⟩

/-- `Contact.update_phone`: replace the phone and recompute the country
from the new phone. -/
def update_phone (c : Contact) (new_phone : String) : Contact :=
  { c with phone := new_phone, country := calculate_country new_phone }

/-- The `User` dataclass: username and hex digest of the password. -/
structure User where
  username : String
  password_hash : String
  deriving DecidableEq

/-- `User.verify_password`: hash the input and compare with the stored
digest (`sha256` is the abstract digest function, see header). -/
def verify_password (sha256 : String → String) (u : User) (input_password : String) : Bool :=
  sha256 input_password == u.password_hash

/-- `Authenticator` state: the credentials file contents (`none` when
the file is absent; the file holds at most the one row that
`_save_to_csv` writes) and the in-memory `current_user`. -/
structure Authenticator where
  stored_file : Option User
  current_user : Option User
  deriving DecidableEq

/-- `Authenticator.setup_account`: hash the password, set
`current_user`, and persist it (`_save_to_csv`). -/
def setup_account (sha256 : String → String) (auth : Authenticator)
    (username raw_password : String) : Authenticator :=
  let u : User := ⟨username, sha256 raw_password⟩
  { stored_file := some u, current_user := some u }

/-- `Authenticator.login`: load credentials from disk when no user is
in memory (`_load_from_csv` leaves `current_user` untouched when the
file is absent), then verify; returns the success flag and the
resulting state. -/
def login (sha256 : String → String) (auth : Authenticator)
    (raw_password : String) : Bool × Authenticator :=
  let auth1 :=
    match auth.current_user with
    | none => { auth with current_user := auth.stored_file }
    | some _ => auth
  match auth1.current_user with
  | some u => (verify_password sha256 u raw_password, auth1)
  | none => (false, auth1)

/-- One row of the contacts CSV file, fields in the `fieldnames` order
`name, phone, country, email, category` used by `save_contacts`. -/
structure Record where
  name : String
  phone : String
  country : String
  email : String
  category : String
  deriving DecidableEq

/-- `asdict(contact)` restricted to the CSV field order: the row
written for one contact. -/
def toRecord (c : Contact) : Record :=
  ⟨c.name, c.phone, c.country, c.email, c.category⟩

/-- `Contact(**line)`: rebuilding a contact from a CSV row re-runs
`__post_init__`. -/
def fromRecord (r : Record) : Contact :=
  mkContact r.name r.phone r.email r.country r.category

/-- `Phonebook` state: the in-memory contact list and the contacts CSV
file contents (`none` = file absent). -/
structure Phonebook where
  contacts : List Contact
  file : Option (List Record)
  deriving DecidableEq

/-- `Phonebook.save_contacts`: overwrite the file with one row per
contact, in list order. -/
def save_contacts (pb : Phonebook) : Phonebook :=
  { pb with file := some (pb.contacts.map toRecord) }

/-- `Phonebook.load_contacts`: an absent file contributes nothing;
otherwise every row becomes a contact, in file order. -/
def load_contacts (file : Option (List Record)) : List Contact :=
  match file with
  | none => []
  | some rs => rs.map fromRecord

/-- `Phonebook.__init__`: start with an empty list and run
`load_contacts` on the given file. -/
def initPhonebook (file : Option (List Record)) : Phonebook :=
  { contacts := load_contacts file, file := file }

/-- `Phonebook.add_contact`: append and save immediately. -/
def add_contact (pb : Phonebook) (c : Contact) : Phonebook :=
  save_contacts { pb with contacts := pb.contacts ++ [c] }

/-- Python `str.lower()` as a character list (per-character lowering). -/
def lowerStr (s : String) : List Char :=
  s.data.map Char.toLower

/-- Python substring test `needle in hay` on character lists. -/
def isSubstr (needle : List Char) : List Char → Bool
  | [] => needle.isPrefixOf []
  | c :: t => needle.isPrefixOf (c :: t) || isSubstr needle t

/-- `Phonebook.search_contacts`: keep, in order, the contacts whose
lowered name contains the lowered query. -/
def search_contacts (pb : Phonebook) (query : String) : List Contact :=
  pb.contacts.filter (fun c => isSubstr (lowerStr query) (lowerStr c.name))

/-- Python `list.remove`: drop the first element equal to `c` by value. -/
def removeFirst (c : Contact) : List Contact → List Contact
  | [] => []
  | x :: xs => if x = c then xs else x :: removeFirst c xs

/-- `Phonebook.delete_contact`: when an equal contact is present,
remove the first occurrence and save; otherwise do nothing. -/
def delete_contact (pb : Phonebook) (c : Contact) : Phonebook :=
  if c ∈ pb.contacts then save_contacts { pb with contacts := removeFirst c pb.contacts }
  else pb

/-- A contact as `__post_init__` leaves it: the category is recognized,
and a sentinel country can only mean that the phone has no matching
prefix.  Every `Contact` the program ever holds has this shape. -/
def Normalized (c : Contact) : Prop :=
  c.category ∈ VALID_CATEGORIES ∧
    (c.country = "Unknown" → calculate_country c.phone = "Unknown")

instance : DecidablePred Normalized :=
  fun c => inferInstanceAs (Decidable (c.category ∈ VALID_CATEGORIES ∧
    (c.country = "Unknown" → calculate_country c.phone = "Unknown")))

/-- The category invariant of claim C10. -/
def validCategory (c : Contact) : Prop :=
  c.category ∈ VALID_CATEGORIES

set_option maxRecDepth 40000

/-
Helper lemmas.
-/

theorem find?_decomp {α : Type} (p : α → Bool) (l : List α) (a : α)
    (h : l.find? p = some a) :
    ∃ l₁ l₂, l = l₁ ++ a :: l₂ ∧ ∀ x ∈ l₁, p x = false := by
  induction l with
  | nil => simp [List.find?] at h
  | cons x xs ih =>
    rw [List.find?_cons] at h
    cases hx : p x with
    | true =>
      simp [hx] at h
      subst h
      exact ⟨[], xs, rfl, by simp⟩
    | false =>
      simp [hx] at h
      obtain ⟨l₁, l₂, rfl, hall⟩ := ih h
      refine ⟨x :: l₁, l₂, rfl, ?_⟩
      intro y hy
      rcases List.mem_cons.1 hy with rfl | hy
      · exact hx
      · exact hall y hy

theorem lookup_of_mem_nodup {α β : Type} [BEq α] [LawfulBEq α] {k : α} {v : β}
    {l : List (α × β)} (hnd : (l.map Prod.fst).Nodup) (h : (k, v) ∈ l) :
    l.lookup k = some v := by
  induction l with
  | nil => simp at h
  | cons hd ps ih =>
    obtain ⟨a, b⟩ := hd
    rw [List.lookup_cons]
    simp only [List.map_cons, List.nodup_cons] at hnd
    rcases List.mem_cons.1 h with heq | hmem
    · obtain ⟨rfl, rfl⟩ := Prod.mk.injEq _ _ _ _ ▸ heq
      simp
    · cases hk : k == a with
      | true =>
        have hka : k = a := eq_of_beq hk
        subst hka
        have hmem' : k ∈ ps.map Prod.fst := List.mem_map.2 ⟨(k, v), hmem, rfl⟩
        exact absurd hmem' hnd.1
      | false => exact ih hnd.2 hmem

theorem startswith_eq_of_length {phone a b : String}
    (ha : startswith phone a = true) (hb : startswith phone b = true)
    (hlen : a.length = b.length) : a = b := by
  unfold startswith at ha hb
  have ha' := List.isPrefixOf_iff_prefix.1 ha
  have hb' := List.isPrefixOf_iff_prefix.1 hb
  have hlen' : a.data.length = b.data.length := hlen
  rcases List.prefix_or_prefix_of_prefix ha' hb' with h | h
  · exact String.ext (h.eq_of_length hlen')
  · exact String.ext ((h.eq_of_length hlen'.symm).symm)

theorem sorted_codes_pairwise :
    sorted_codes.Pairwise (fun a b => b.length ≤ a.length) := by decide

theorem sorted_codes_keys : ∀ x ∈ sorted_codes, x ∈ COUNTRY_CODES.map Prod.fst := by
  decide

theorem keys_sorted_codes : ∀ x ∈ COUNTRY_CODES.map Prod.fst, x ∈ sorted_codes := by
  decide

theorem country_keys_nodup : (COUNTRY_CODES.map Prod.fst).Nodup := by decide

theorem calc_country_longest_aux (phone code country : String)
    (hmem : (code, country) ∈ COUNTRY_CODES)
    (hpre : startswith phone code = true)
    (hmax : ∀ p ∈ COUNTRY_CODES, startswith phone p.1 = true → p.1.length ≤ code.length) :
    calculate_country phone = country := by
  have hkey : code ∈ COUNTRY_CODES.map Prod.fst :=
    List.mem_map.2 ⟨(code, country), hmem, rfl⟩
  have hs : code ∈ sorted_codes := keys_sorted_codes _ hkey
  unfold calculate_country
  cases hfind : sorted_codes.find? (fun c => startswith phone c) with
  | none =>
    exact absurd hpre (by simpa using List.find?_eq_none.1 hfind code hs)
  | some c =>
    have hpc : startswith phone c = true := List.find?_some hfind
    obtain ⟨l₁, l₂, hdec, hnomatch⟩ := find?_decomp _ _ _ hfind
    have hcs : c ∈ sorted_codes := by
      rw [hdec]; exact List.mem_append.2 (Or.inr (List.mem_cons_self _ _))
    obtain ⟨⟨c', v⟩, hcv, hfst⟩ := List.mem_map.1 (sorted_codes_keys _ hcs)
    have hfst' : c' = c := hfst
    subst hfst'
    have hle : c'.length ≤ code.length := hmax (c', v) hcv hpc
    have hcode : code = c' := by
      rcases List.mem_append.1 (hdec ▸ hs) with hin1 | hin2
      · exact absurd hpre (by simpa using hnomatch code hin1)
      · rcases List.mem_cons.1 hin2 with rfl | hin2
        · rfl
        · have hpw := sorted_codes_pairwise
          rw [hdec] at hpw
          have hc2 := (List.pairwise_cons.1 (List.pairwise_append.1 hpw).2.1).1
          have hge : code.length ≤ c'.length := hc2 code hin2
          exact startswith_eq_of_length hpre hpc (Nat.le_antisymm hge hle)
    subst hcode
    show (List.lookup code COUNTRY_CODES).getD "Unknown" = country
    rw [lookup_of_mem_nodup country_keys_nodup hmem]
    rfl

theorem calc_country_unknown_aux (phone : String)
    (hnone : ∀ p ∈ COUNTRY_CODES, startswith phone p.1 = false) :
    calculate_country phone = "Unknown" := by
  unfold calculate_country
  cases hfind : sorted_codes.find? (fun c => startswith phone c) with
  | none => rfl
  | some c =>
    have hpc : startswith phone c = true := List.find?_some hfind
    have hcs : c ∈ sorted_codes := List.mem_of_find?_eq_some hfind
    obtain ⟨⟨c', v⟩, hcv, hfst⟩ := List.mem_map.1 (sorted_codes_keys _ hcs)
    have hfst' : c' = c := hfst
    subst hfst'
    exact absurd hpc (by simp [hnone (c', v) hcv])

theorem mkContact_eq (n p e co ca : String) :
    mkContact n p e co ca =
      ⟨n, p, e, if co = "Unknown" then calculate_country p else co,
        if ca ∈ VALID_CATEGORIES then ca else "General"⟩ := by
  unfold mkContact post_init
  by_cases hco : co = "Unknown" <;> by_cases hca : ca ∈ VALID_CATEGORIES <;>
    simp [hco, hca]

theorem mkContact_name (n p e co ca : String) : (mkContact n p e co ca).name = n := by
  simp [mkContact_eq]

theorem mkContact_phone (n p e co ca : String) : (mkContact n p e co ca).phone = p := by
  simp [mkContact_eq]

theorem mkContact_email (n p e co ca : String) : (mkContact n p e co ca).email = e := by
  simp [mkContact_eq]

theorem mkContact_category (n p e co ca : String) :
    (mkContact n p e co ca).category = if ca ∈ VALID_CATEGORIES then ca else "General" := by
  simp [mkContact_eq]

theorem mkContact_country_of_ne (n p e co ca : String) (h : co ≠ "Unknown") :
    (mkContact n p e co ca).country = co := by
  simp [mkContact_eq, h]

theorem mkContact_country_unknown (n p e ca : String) :
    (mkContact n p e "Unknown" ca).country = calculate_country p := by
  simp [mkContact_eq]

theorem mkContact_normalized (n p e co ca : String) : Normalized (mkContact n p e co ca) := by
  refine ⟨?_, ?_⟩
  · rw [mkContact_category]
    split
    · assumption
    · decide
  · intro hu
    rw [mkContact_phone]
    by_cases hco : co = "Unknown"
    · subst hco
      rw [mkContact_country_unknown] at hu
      exact hu
    · rw [mkContact_country_of_ne _ _ _ _ _ hco] at hu
      exact absurd hu hco

theorem roundtrip_contact (c : Contact) (h : Normalized c) : fromRecord (toRecord c) = c := by
  obtain ⟨hval, hunk⟩ := h
  cases c with
  | mk n p e co ca =>
    simp only at hval hunk
    unfold fromRecord toRecord
    dsimp only
    rw [mkContact_eq]
    by_cases hco : co = "Unknown"
    · subst hco
      simp [hval, hunk rfl]
    · simp [hval, hco]

theorem map_roundtrip (l : List Contact) (h : ∀ x ∈ l, Normalized x) :
    (l.map toRecord).map fromRecord = l := by
  induction l with
  | nil => rfl
  | cons x xs ih =>
    simp only [List.map_cons]
    rw [roundtrip_contact x (h x (by simp)), ih (fun y hy => h y (by simp [hy]))]

theorem removeFirst_decomp (c : Contact) (l : List Contact) (h : c ∈ l) :
    ∃ l₁ l₂, l = l₁ ++ c :: l₂ ∧ c ∉ l₁ ∧ removeFirst c l = l₁ ++ l₂ := by
  induction l with
  | nil => simp at h
  | cons x xs ih =>
    by_cases hx : x = c
    · subst hx
      exact ⟨[], xs, rfl, by simp, by simp [removeFirst]⟩
    · have hc : c ∈ xs := by
        rcases List.mem_cons.1 h with rfl | h'
        · exact absurd rfl hx
        · exact h'
      obtain ⟨l₁, l₂, rfl, hnm, hrm⟩ := ih hc
      refine ⟨x :: l₁, l₂, rfl, ?_, ?_⟩
      · intro hmemc
        rcases List.mem_cons.1 hmemc with rfl | hmemc
        · exact hx rfl
        · exact hnm hmemc
      · simp [removeFirst, hx, hrm]

theorem removeFirst_sublist (c : Contact) (l : List Contact) :
    (removeFirst c l).Sublist l := by
  induction l with
  | nil => simp [removeFirst]
  | cons x xs ih =>
    by_cases hx : x = c
    · simp [removeFirst, hx]
    · simpa [removeFirst, hx] using ih

theorem isSubstr_nil_true (hay : List Char) : isSubstr [] hay = true := by
  cases hay <;> simp [isSubstr, List.isPrefixOf]

/-
Claim theorems.
-/

/-- C1: for every phone string, `_calculate_country` returns the country
name mapped from the longest prefix of the static `COUNTRY_CODES` table
that the phone starts with, and the sentinel `"Unknown"` when no prefix
matches; in particular `"+1242..."` resolves to `"Bahamas"` although
`"+1"` also matches. -/
theorem C1_calculate_country_longest :
    (∀ phone code country : String, (code, country) ∈ COUNTRY_CODES →
        startswith phone code = true →
        (∀ p ∈ COUNTRY_CODES, startswith phone p.1 = true → p.1.length ≤ code.length) →
        calculate_country phone = country) ∧
      (∀ phone : String, (∀ p ∈ COUNTRY_CODES, startswith phone p.1 = false) →
        calculate_country phone = "Unknown") ∧
      calculate_country "+12425550100" = "Bahamas" ∧
      startswith "+12425550100" "+1" = true :=
  ⟨calc_country_longest_aux, calc_country_unknown_aux, by decide, by decide⟩

/-- Witness for C1: the longest-match theorem applied at a concrete
phone whose longest matching code is `"+351"`. -/
theorem C1_calculate_country_longest_witness :
    calculate_country "+3519998887" = "Portugal" :=
  C1_calculate_country_longest.1 "+3519998887" "+351" "Portugal"
    (by decide) (by decide) (by decide)

/-- C2: after `update_phone(new_phone)` the phone equals `new_phone`
and the country equals the prefix-resolver result for the stored phone,
for every contact and every new phone. -/
theorem C2_update_phone_consistent :
    ∀ (c : Contact) (new_phone : String),
      (update_phone c new_phone).phone = new_phone ∧
      (update_phone c new_phone).country =
        calculate_country ((update_phone c new_phone).phone) :=
  fun _ _ => ⟨rfl, rfl⟩

/-- C6: `Contact` construction passes one of the five recognized
categories through unchanged and replaces anything else by
`"General"`. -/
theorem C6_category_normalization :
    ∀ n p e co ca : String,
      (mkContact n p e co ca).category =
        if ca ∈ VALID_CATEGORIES then ca else "General" :=
  mkContact_category

/-- C8: an absent storage file yields an empty dataset: a phonebook
initialized without a contacts file has no contacts, and with an absent
credentials file the authenticator keeps no credential in memory, so
login reports failure instead of raising. -/
theorem C8_missing_files_empty :
    ∀ (sha256 : String → String) (pw : String),
      (initPhonebook none).contacts = [] ∧
      (login sha256 ⟨none, none⟩ pw).1 = false ∧
      (login sha256 ⟨none, none⟩ pw).2.current_user = none :=
  fun _ _ => ⟨rfl, rfl, rfl⟩

/-- C9: a caller-supplied country other than the sentinel `"Unknown"`
is stored verbatim, without invoking the prefix resolver, so the stored
country can disagree with the phone's prefix. -/
theorem C9_country_verbatim :
    (∀ n p e co ca : String, co ≠ "Unknown" →
        (mkContact n p e co ca).country = co) ∧
      (mkContact "Eve" "+44500" "eve@x" "France" "General").country ≠
        calculate_country (mkContact "Eve" "+44500" "eve@x" "France" "General").phone :=
  ⟨mkContact_country_of_ne, by decide⟩

/-- Witness for C9: the verbatim-country theorem at a concrete
contact. -/
theorem C9_country_verbatim_witness :
    (mkContact "Ada" "+49151" "ada@x" "Chile" "Friends").country = "Chile" :=
  C9_country_verbatim.1 "Ada" "+49151" "ada@x" "Chile" "Friends" (by decide)

/-- C3: `setup_account` followed immediately by `login` with the same
password succeeds; a login with any password whose digest differs fails
and leaves the authenticator state — in particular the stored password
hash — unchanged.  (`sha256` is the abstract digest; the inequality
hypothesis is exactly collision-freeness at the two inputs.) -/
theorem C3_register_login :
    ∀ (sha256 : String → String) (auth : Authenticator) (username pw other : String),
      (login sha256 (setup_account sha256 auth username pw) pw).1 = true ∧
      (sha256 other ≠ sha256 pw →
        (login sha256 (setup_account sha256 auth username pw) other).1 = false ∧
        (login sha256 (setup_account sha256 auth username pw) other).2 =
          setup_account sha256 auth username pw) := by
  intro sha256 auth username pw other
  constructor
  · simp [login, setup_account, verify_password]
  · intro hne
    refine ⟨?_, rfl⟩
    simp [login, setup_account, verify_password, hne]

/-- Witness for C3: a concrete digest function and password pair on
which the failed-login branch of the theorem applies. -/
theorem C3_register_login_witness :
    (login (fun s => s ++ "#") (setup_account (fun s => s ++ "#") ⟨none, none⟩ "user" "pw1")
        "pw2").1 = false :=
  ((C3_register_login (fun s => s ++ "#") ⟨none, none⟩ "user" "pw1" "pw2").2 (by decide)).1

/-- C4: `search_contacts` returns exactly the contacts whose name
contains the query as a case-insensitive substring (name field only),
in the underlying order, and the empty query returns the full
collection. -/
theorem C4_search_characterization :
    ∀ (pb : Phonebook) (query : String),
      (∀ c : Contact, c ∈ search_contacts pb query ↔
          c ∈ pb.contacts ∧ isSubstr (lowerStr query) (lowerStr c.name) = true) ∧
      (search_contacts pb query).Sublist pb.contacts ∧
      search_contacts pb "" = pb.contacts := by
  intro pb query
  refine ⟨fun c => List.mem_filter, List.filter_sublist _, ?_⟩
  exact List.filter_eq_self.2 (fun c _ => isSubstr_nil_true (lowerStr c.name))

/-- C7: `delete_contact` removes the first occurrence equal to the
given contact by value and then persists the full collection; when no
equal contact is present the state is untouched. -/
theorem C7_delete_contact :
    (∀ (pb : Phonebook) (c : Contact), c ∈ pb.contacts →
        ∃ l₁ l₂, pb.contacts = l₁ ++ c :: l₂ ∧ c ∉ l₁ ∧
          (delete_contact pb c).contacts = l₁ ++ l₂ ∧
          (delete_contact pb c).file = some ((l₁ ++ l₂).map toRecord)) ∧
      ∀ (pb : Phonebook) (c : Contact), c ∉ pb.contacts → delete_contact pb c = pb := by
  constructor
  · intro pb c hmem
    obtain ⟨l₁, l₂, hdec, hnm, hrm⟩ := removeFirst_decomp c pb.contacts hmem
    exact ⟨l₁, l₂, hdec, hnm,
      by simp [delete_contact, hmem, save_contacts, hrm],
      by simp [delete_contact, hmem, save_contacts, hrm]⟩
  · intro pb c hmem
    simp [delete_contact, hmem]

/-- Witness for C7: deleting the only contact of a one-element
phonebook leaves the collection empty. -/
theorem C7_delete_contact_witness :
    (delete_contact ⟨[mkContact "Bob" "+44123" "b@x" "UK" "General"], none⟩
        (mkContact "Bob" "+44123" "b@x" "UK" "General")).contacts = [] := by
  obtain ⟨l₁, l₂, hdec, -, hres, -⟩ :=
    C7_delete_contact.1 ⟨[mkContact "Bob" "+44123" "b@x" "UK" "General"], none⟩
      (mkContact "Bob" "+44123" "b@x" "UK" "General") (by decide)
  have hlen := congrArg List.length hdec
  simp [List.length_append] at hlen
  have e1 : l₁ = [] := List.length_eq_zero.1 (by omega)
  have e2 : l₂ = [] := List.length_eq_zero.1 (by omega)
  subst e1
  subst e2
  simpa using hres

/-- C10: every freshly constructed contact carries one of the five
recognized categories, and the invariant is preserved by
`add_contact`, `load_contacts` (phonebook initialization),
`delete_contact` and `search_contacts`. -/
theorem C10_category_invariant :
    (∀ n p e co ca : String, validCategory (mkContact n p e co ca)) ∧
      (∀ (pb : Phonebook) (c : Contact),
        (∀ x ∈ pb.contacts, validCategory x) → validCategory c →
        ∀ x ∈ (add_contact pb c).contacts, validCategory x) ∧
      (∀ file : Option (List Record),
        ∀ x ∈ (initPhonebook file).contacts, validCategory x) ∧
      (∀ (pb : Phonebook) (c : Contact),
        (∀ x ∈ pb.contacts, validCategory x) →
        ∀ x ∈ (delete_contact pb c).contacts, validCategory x) ∧
      (∀ (pb : Phonebook) (q : String),
        (∀ x ∈ pb.contacts, validCategory x) →
        ∀ x ∈ search_contacts pb q, validCategory x) := by
  have hmk : ∀ n p e co ca : String, validCategory (mkContact n p e co ca) :=
    fun n p e co ca => (mkContact_normalized n p e co ca).1
  refine ⟨hmk, ?_, ?_, ?_, ?_⟩
  · intro pb c hall hc x hx
    simp only [add_contact, save_contacts] at hx
    rcases List.mem_append.1 hx with hx | hx
    · exact hall x hx
    · rcases List.mem_cons.1 hx with rfl | hx
      · exact hc
      · exact absurd hx (List.not_mem_nil x)
  · intro file x hx
    cases file with
    | none => exact absurd hx (List.not_mem_nil x)
    | some rs =>
      simp only [initPhonebook, load_contacts] at hx
      obtain ⟨r, _, rfl⟩ := List.mem_map.1 hx
      exact hmk r.name r.phone r.email r.country r.category
  · intro pb c hall x hx
    unfold delete_contact at hx
    split at hx
    · exact hall x ((removeFirst_sublist c pb.contacts).subset
        (by simpa [save_contacts] using hx))
    · exact hall x hx
  · intro pb q hall x hx
    exact hall x (List.mem_filter.1 hx).1

/-- Witness for C10: preservation through `add_contact` applied to an
empty phonebook and a concrete contact. -/
theorem C10_category_invariant_witness :
    validCategory (mkContact "Al" "+39000" "al@x" "Italy" "Family") :=
  C10_category_invariant.2.1 ⟨[], none⟩ (mkContact "Al" "+39000" "al@x" "Italy" "Family")
    (fun x hx => absurd hx (List.not_mem_nil x))
    (C10_category_invariant.1 "Al" "+39000" "al@x" "Italy" "Family")
    (mkContact "Al" "+39000" "al@x" "Italy" "Family") (by decide)

/-- Counterexample to C5 as stated: with a duplicated contact, deleting
removes only the first occurrence, so after the subsequent save and
reload the collection still contains the deleted contact. -/
theorem C5_delete_reload_counterexample :
    mkContact "Ann" "+33123456" "ann@x" "France" "Family" ∈
      (initPhonebook (delete_contact
        (add_contact (add_contact (initPhonebook none)
            (mkContact "Ann" "+33123456" "ann@x" "France" "Family"))
          (mkContact "Ann" "+33123456" "ann@x" "France" "Family"))
        (mkContact "Ann" "+33123456" "ann@x" "France" "Family")).file).contacts := by
  decide

/-- C5 (amended): for collections of post-init-normalized contacts
whose file is in sync, deleting a contact that occurs at most once and
reloading yields a collection without it; and adding a contact and
reloading reproduces the added contact, with identical fields, as the
last entry. -/
theorem C5_persistence_roundtrip :
    (∀ (pb : Phonebook) (c : Contact),
        (∀ x ∈ pb.contacts, Normalized x) →
        pb.file = some (pb.contacts.map toRecord) →
        pb.contacts.count c ≤ 1 →
        c ∉ (initPhonebook (delete_contact pb c).file).contacts) ∧
      ∀ (pb : Phonebook) (c : Contact), Normalized c →
        (initPhonebook (add_contact pb c).file).contacts =
          (pb.contacts.map toRecord).map fromRecord ++ [c] := by
  constructor
  · intro pb c hall hsync hcount
    by_cases hmem : c ∈ pb.contacts
    · obtain ⟨l₁, l₂, hdec, hnm, hrm⟩ := removeFirst_decomp c pb.contacts hmem
      have hfile : (delete_contact pb c).file =
          some ((removeFirst c pb.contacts).map toRecord) := by
        simp [delete_contact, hmem, save_contacts]
      rw [hfile]
      show c ∉ ((removeFirst c pb.contacts).map toRecord).map fromRecord
      have hallrm : ∀ x ∈ removeFirst c pb.contacts, Normalized x :=
        fun x hx => hall x ((removeFirst_sublist c pb.contacts).subset hx)
      rw [map_roundtrip _ hallrm, hrm]
      rw [hdec] at hcount
      refine List.count_eq_zero.1 ?_
      rw [List.count_append] at hcount ⊢
      rw [List.count_cons_self] at hcount
      omega
    · have hdel : delete_contact pb c = pb := by simp [delete_contact, hmem]
      rw [hdel, hsync]
      show c ∉ (pb.contacts.map toRecord).map fromRecord
      rw [map_roundtrip _ hall]
      exact hmem
  · intro pb c hc
    show ((pb.contacts ++ [c]).map toRecord).map fromRecord = _
    rw [List.map_append, List.map_append]
    simp [roundtrip_contact c hc]

/-- Witness for C5 (amended): deleting the single contact of an
in-sync one-element phonebook and reloading yields a collection
without it. -/
theorem C5_persistence_roundtrip_witness :
    mkContact "Zoe" "+6598" "z@x" "Singapore" "General" ∉
      (initPhonebook (delete_contact
        ⟨[mkContact "Zoe" "+6598" "z@x" "Singapore" "General"],
          some [toRecord (mkContact "Zoe" "+6598" "z@x" "Singapore" "General")]⟩
        (mkContact "Zoe" "+6598" "z@x" "Singapore" "General")).file).contacts :=
  C5_persistence_roundtrip.1
    ⟨[mkContact "Zoe" "+6598" "z@x" "Singapore" "General"],
      some [toRecord (mkContact "Zoe" "+6598" "z@x" "Singapore" "General")]⟩
    (mkContact "Zoe" "+6598" "z@x" "Singapore" "General")
    (by decide) (by decide) (by decide)
